import Mathlib

namespace Salmon

/-!
# Verification of the smoked-salmon dupe-check subsystem

Shallow embedding of the duplicate-release-detection code of the
smoked-salmon repository (`salmon/uploader/dupe_checker.py`,
`salmon/uploader/__init__.py`, `salmon/trackers/base.py`) together with the
parts of the Python standard library it relies on
(`difflib.SequenceMatcher.ratio`).

Python strings are embedded as `String` / `List Char`; Python floats that
only ever hold exact dyadic similarity ratios are embedded as `ℚ` (the
ratio `2*M/T` is computed exactly); Python `None` becomes `Option`;
interactive prompt loops consume an explicit list of scripted user inputs.
-/

/-! ## Word splitting (Python `str.split()`)

`str.split()` with no argument splits on runs of whitespace and drops empty
fragments. -/

/-- Split a list of characters on runs of whitespace, dropping empties;
`acc` is the (reversed) current word. -/
def splitWsAux : List Char → List Char → List (List Char)
  | [], [] => []
  | [], acc => [acc.reverse]
  | c :: cs, acc =>
    if c.isWhitespace then
      match acc with
      | [] => splitWsAux cs []
      | _ => acc.reverse :: splitWsAux cs []
    else splitWsAux cs (c :: acc)

/-- Python `s.split()`: whitespace-separated words of a string. -/
def pyWords (s : String) : List String :=
  (splitWsAux s.toList []).map List.asString

/-- `wordSubsetB a b` embeds Python
`all(p in set(b.split()) for p in set(a.split()))`:
the word set of `a` is a subset of the word set of `b`. -/
def wordSubsetB (a b : String) : Bool :=
  (pyWords a).all (fun w => (pyWords b).contains w)

/-! ## `filter_unnecessary_searchstrs` (dupe_checker.py:222-233) -/

/-- Stable insertion into a length-sorted list (element goes before the first
strictly longer element, after all shorter-or-equal ones), matching the
stability of Python `sorted(key=len)`. -/
def insertByLen (s : String) : List String → List String
  | [] => [s]
  | t :: ts => if t.length ≤ s.length then t :: insertByLen s ts else s :: t :: ts

/-- Python `sorted(searchstrs, key=len)`: stable sort by string length. -/
def sortByLen (l : List String) : List String :=
  l.foldr insertByLen []

/-- The loop of `filter_unnecessary_searchstrs`: `kept` is the list of
already-kept strings (Python keeps their word sets in `past_strs`; keeping
the strings themselves is equivalent since only the word set is consulted).
A candidate is dropped when some kept string's word set is contained in the
candidate's word set. -/
def filterGo : List String → List String → List String
  | [], _ => []
  | s :: rest, kept =>
    if kept.any (fun p => wordSubsetB p s) then filterGo rest kept
    else s :: filterGo rest (kept ++ [s])

/-- `filter_unnecessary_searchstrs` (dupe_checker.py:222-233): sort the
candidates by length ascending, then keep each string unless an
already-kept string's word set is a subset of its word set. -/
def filter_unnecessary_searchstrs (searchstrs : List String) : List String :=
  filterGo (sortByLen searchstrs) []

/-- The property claimed by the spec for the output of the redundancy
filter: no member's word set is a strict superset of another member's word
set. -/
def noStrictWordSupersetPairs (l : List String) : Bool :=
  l.all (fun a => l.all (fun b => !(wordSubsetB b a && !wordSubsetB a b)))

/-! ## String normalization

`make_searchstrs` lives in `salmon/common/strings.py`, which is not among
the provided sources; it is modelled from the spec (§4.1 steps 1 and 3).
The helpers below implement the normalization it describes. -/

/-- Modelled from the spec: "strips accents" — fold common accented Latin
letters to their unaccented base letter; other characters are unchanged.
(The full Unicode decomposition used by the missing
`salmon/common/strings.py` is approximated by a fixed table; every input
appearing in a theorem below is plain ASCII, where this is exact.) -/
def accentFold (c : Char) : Char :=
  if c = 'á' || c = 'à' || c = 'â' || c = 'ä' || c = 'ã' || c = 'å' then 'a'
  else if c = 'é' || c = 'è' || c = 'ê' || c = 'ë' then 'e'
  else if c = 'í' || c = 'ì' || c = 'î' || c = 'ï' then 'i'
  else if c = 'ó' || c = 'ò' || c = 'ô' || c = 'ö' || c = 'õ' then 'o'
  else if c = 'ú' || c = 'ù' || c = 'û' || c = 'ü' then 'u'
  else if c = 'ñ' then 'n'
  else if c = 'ç' then 'c'
  else c

/-- Modelled from the spec (§4.1 step 3): "normalization lowercases, strips
accents, collapses whitespace, and removes characters outside an
alphanumeric+space allowlist". -/
def normalizeSearchstr (s : String) : String :=
  let cs := (s.toList.map accentFold).map Char.toLower
  let kept := cs.filter (fun c => c.isAlphanum || c = ' ')
  String.intercalate " " ((splitWsAux kept []).map List.asString)

/-- Modelled from the spec (§4.1 step 1): the configured various-artist
threshold (number of main artists above which the "Various Artists" token
is substituted). -/
def variousArtistThreshold : Nat := 4

/-- Modelled from the spec (§4.1 step 1): the configured "Various Artists"
token. -/
def variousArtistWord : String := "Various Artists"

/-- Modelled from the spec: `make_searchstrs` of the missing
`salmon/common/strings.py` (called with `normalize=True`).  §4.1 steps 1
and 3: concatenate the `main`-role artist names (substituting the
"Various Artists" token above the threshold), append the album title and
normalize; the result is a one-element list of search strings.  An artist
list entry is a `(name, role)` pair. -/
def make_searchstrs (artists : List (String × String)) (album : String) :
    List String :=
  let mains := (artists.filter (fun a => a.2 == "main")).map (fun a => a.1)
  let artistStr :=
    if variousArtistThreshold < mains.length then variousArtistWord
    else String.intercalate " " mains
  [normalizeSearchstr (artistStr ++ " " ++ album)]

/-! ## `_sanitize_album_for_dupe_check` (dupe_checker.py:206-219) -/

/-- `isPrefixB needle hay`: `needle` is a prefix of `hay`. -/
def isPrefixB : List Char → List Char → Bool
  | [], _ => true
  | _ :: _, [] => false
  | n :: ns, c :: cs => n == c && isPrefixB ns cs

/-- `isInfixB needle hay`: `needle` occurs contiguously inside `hay`
(Python `needle in hay`). -/
def isInfixB : List Char → List Char → Bool
  | needle, [] => needle.isEmpty
  | needle, c :: cs => isPrefixB needle (c :: cs) || isInfixB needle cs

/-- Index of the first occurrence of `needle` in `hay`, if any. -/
def findInfixIdx : List Char → List Char → Option Nat
  | needle, [] => if needle.isEmpty then some 0 else none
  | needle, c :: cs =>
    if isPrefixB needle (c :: cs) then some 0
    else (findInfixIdx needle cs).map (· + 1)

/-- Case-insensitive containment of `needle` in `hay`. -/
def containsCI (needle : String) (hay : List Char) : Bool :=
  isInfixB (needle.toList.map Char.toLower) (hay.map Char.toLower)

/-- Modelled from the spec: `RE_FEAT` of the missing
`salmon/common/constants.py` "strips a feat./ft. clause" — everything from
the first case-insensitive occurrence of `" feat"` or `" ft."` to the end
of the string is removed; a string with neither marker is unchanged. -/
def stripFeat (s : String) : String :=
  let low := s.toList.map Char.toLower
  let i1 := findInfixIdx (" feat".toList) low
  let i2 := findInfixIdx (" ft.".toList) low
  match i1, i2 with
  | none, none => s
  | some i, none => (s.toList.take i).asString
  | none, some j => (s.toList.take j).asString
  | some i, some j => (s.toList.take (min i j)).asString

/-- An opening bracket of the regex class `[\(\[]`. -/
def isOpenB (c : Char) : Bool := c == '(' || c == '['

/-- A closing bracket of the regex class `[\)\]]`. -/
def isCloseB (c : Char) : Bool := c == ')' || c == ']'

/-- Split at the first closing bracket: returns the characters before it
and the characters after it. -/
def findClose : List Char → Option (List Char × List Char)
  | [] => none
  | c :: cs =>
    if isCloseB c then some ([], cs)
    else match findClose cs with
         | some (interior, rest) => some (c :: interior, rest)
         | none => none

/-- One bracket-substitution pass, embedding Python
`re.sub(r"[\(\[][^\)\]]*KW[^\)\]]*[\)\]]", repl, s, flags=re.IGNORECASE)`:
scanning left to right, a match starts at an opening bracket and extends
to the first closing bracket after it, and succeeds exactly when the
keyword test holds of the span between the brackets; matches are replaced
by `repl` and scanning resumes after the match.  `fuel` bounds the scan
(each step consumes at least one character, so the input length is always
enough fuel). -/
def scanSubF (kw : List Char → Bool) (repl : List Char) :
    Nat → List Char → List Char
  | 0, l => l
  | _ + 1, [] => []
  | fuel + 1, c :: cs =>
    if isOpenB c then
      match findClose cs with
      | some (interior, rest) =>
        if kw interior then repl ++ scanSubF kw repl fuel rest
        else c :: scanSubF kw repl fuel cs
      | none => c :: scanSubF kw repl fuel cs
    else c :: scanSubF kw repl fuel cs

/-- Apply a bracket substitution to a string. -/
def bracketSub (kw : List Char → Bool) (repl : String) (s : String) : String :=
  (scanSubF kw repl.toList s.toList.length s.toList).asString

/-- The keyword alternation of the first substitution in
`_sanitize_album_for_dupe_check`:
`(Edition|Version|Deluxe|Original|Reissue|Remaster|Vol|Mix|Edit)`. -/
def editionKeywords : List String :=
  ["Edition", "Version", "Deluxe", "Original", "Reissue", "Remaster",
   "Vol", "Mix", "Edit"]

/-- Keyword test of the first substitution: the interior contains one of
the edition keywords, case-insensitively. -/
def hasEditionKw (interior : List Char) : Bool :=
  editionKeywords.any (fun k => containsCI k interior)

/-- `_sanitize_album_for_dupe_check` (dupe_checker.py:206-219): `None` or
empty album becomes `""`; otherwise strip a feat clause, delete bracketed
edition/version qualifiers, and collapse bracketed remix qualifiers to
bare `remixes` / `remix` tokens. -/
def _sanitize_album_for_dupe_check (album : Option String) : String :=
  match album with
  | none => ""
  | some a =>
    if a = "" then ""
    else
      let a1 := stripFeat a
      let a2 := bracketSub hasEditionKw "" a1
      let a3 := bracketSub (containsCI "Remixes") "remixes" a2
      bracketSub (containsCI "Remix") "remix" a3

/-! ## `generate_dupe_check_searchstrs` (dupe_checker.py:190-203) -/

/-- Embeds Python `re.search(r"vol[^u]", s)`: some position holds `vol`
followed by one more character that is not `u`. -/
def volNonUAux : List Char → Bool
  | 'v' :: 'o' :: 'l' :: d :: rest => (d != 'u') || volNonUAux ('o' :: 'l' :: d :: rest)
  | _ :: cs => volNonUAux cs
  | [] => false

/-- `re.search(r"vol[^u]", album.lower())` as a Boolean. -/
def volNonU (s : String) : Bool :=
  volNonUAux (s.toList.map Char.toLower)

/-- Embeds Python `re.sub(r"vol[^ ]+", "volume", s, flags=re.IGNORECASE)`:
a case-insensitive `vol` followed by at least one non-space character is
replaced — together with the whole following run of non-space
characters — by the literal word `volume`. -/
def volSubF : Nat → List Char → List Char
  | 0, l => l
  | _ + 1, [] => []
  | fuel + 1, c :: cs =>
    if c.toLower == 'v' then
      match cs with
      | o :: l :: d :: rest =>
        if o.toLower == 'o' && l.toLower == 'l' && d != ' ' then
          "volume".toList ++ volSubF fuel ((d :: rest).dropWhile (fun x => x != ' '))
        else c :: volSubF fuel cs
      | _ => c :: volSubF fuel cs
    else c :: volSubF fuel cs

/-- `re.sub(r"vol[^ ]+", "volume", album, flags=re.IGNORECASE)`. -/
def volSub (s : String) : String :=
  (volSubF s.toList.length s.toList).asString

/-- `generate_dupe_check_searchstrs` (dupe_checker.py:190-203): sanitize
the album title, build the base search string, add the vol→volume,
untitled→catno, before-the-slash and catno→untitled variants when their
triggers hold, then apply the redundancy filter.  (After sanitization the
album is always a string, so the Python `album is not None` guards are
vacuously true and only the content conditions remain.) -/
def generate_dupe_check_searchstrs (artists : List (String × String))
    (album : Option String) (catno : Option String) : List String :=
  let alb := _sanitize_album_for_dupe_check album
  let s1 := make_searchstrs artists alb
  let s2 := if volNonU alb then make_searchstrs artists (volSub alb) else []
  let s3 :=
    if isInfixB "untitled".toList (alb.toList.map Char.toLower) then
      make_searchstrs artists (catno.getD "")
    else []
  let s4 :=
    if alb.toList.contains '/' then
      make_searchstrs artists (alb.toList.takeWhile (fun c => c != '/')).asString
    else
      match catno with
      | some c =>
        if c != "" && isInfixB (c.toList.map Char.toLower) (alb.toList.map Char.toLower) then
          make_searchstrs artists "untitled"
        else []
      | none => []
  filter_unnecessary_searchstrs (s1 ++ s2 ++ s3 ++ s4)

/-! ## `recheck_dupe` (uploader/__init__.py:551-561) -/

/-- The re-run condition of `recheck_dupe`: re-derive the query set from
the updated metadata and re-run the full dupe-check protocol exactly when
`searchstrs and any(n not in searchstrs for n in new_searchstrs) or
not searchstrs and new_searchstrs` is truthy. -/
def recheck_dupe_reruns (searchstrs : List String)
    (artists : List (String × String)) (title : Option String)
    (catno : Option String) : Bool :=
  let new_searchstrs := generate_dupe_check_searchstrs artists title catno
  (!searchstrs.isEmpty && new_searchstrs.any (fun n => !searchstrs.contains n))
    || (searchstrs.isEmpty && !new_searchstrs.isEmpty)

/-- Equality of two lists of strings as sets (by membership). -/
def sameSetB (xs ys : List String) : Bool :=
  xs.all (fun x => ys.contains x) && ys.all (fun y => xs.contains y)

/-! ## `difflib.SequenceMatcher.ratio`

`dupe_check_recent_torrents` (dupe_checker.py:36) scores similarity with
`SequenceMatcher(None, a, b).ratio()` from the Python standard library.
With no junk argument (and below the 200-element autojunk threshold, which
no comparison string in this development reaches), `find_longest_match`
returns, of all matching blocks `(i, j, k)` with `a[i:i+k] == b[j:j+k]`
and `k` maximal, the one starting earliest in `a` and then earliest in
`b`; `get_matching_blocks` recurses on the pieces left and right of that
block; `ratio` is `2*M/T` where `M` is the total size of all matching
blocks and `T` the sum of the lengths (`1.0` when both are empty).  The
ratio is computed exactly in `ℚ` (every Python float produced this way is
an exact binary fraction comparison against the tolerance, and the
comparisons relevant to the claims are exact in either representation). -/

/-- Length of the longest common prefix of two sequences. -/
def matchLen : List Char → List Char → Nat
  | a :: as, b :: bs => if a == b then matchLen as bs + 1 else 0
  | _, _ => 0

/-- All suffixes of a list, longest first (`l.tails`), ending with `[]`. -/
def tailsL : List Char → List (List Char)
  | [] => [[]]
  | c :: cs => (c :: cs) :: tailsL cs

/-- Combine two match candidates, keeping the first unless the second has
a strictly longer run: over candidates enumerated in ascending `(i, j)`
order this selects the longest matching block with ties broken towards
the smallest `i`, then the smallest `j` — exactly difflib's
earliest-in-`a`-then-earliest-in-`b` tie-breaking. -/
def flmCombine (p q : Nat × Nat × Nat) : Nat × Nat × Nat :=
  if p.2.2 < q.2.2 then q else p

/-- Best candidate for a fixed start position `ai` in `a` (with suffix
`sa`) over all start positions `bj` in `b` (given as the list of suffixes
of `b`). -/
def flmRow (ai : Nat) (sa : List Char) : Nat → List (List Char) → Nat × Nat × Nat
  | _, [] => (0, 0, 0)
  | bj, sb :: rest =>
    flmCombine (ai, bj, matchLen sa sb) (flmRow ai sa (bj + 1) rest)

/-- Best candidate over all start positions in `a`. -/
def flmRows (btails : List (List Char)) : Nat → List (List Char) → Nat × Nat × Nat
  | _, [] => (0, 0, 0)
  | ai, sa :: rest =>
    flmCombine (flmRow ai sa 0 btails) (flmRows btails (ai + 1) rest)

/-- `SequenceMatcher.find_longest_match` over the full ranges (no junk):
the longest matching block `(i, j, k)`, ties broken towards the smallest
`i`, then the smallest `j`; `(0, 0, 0)` when there is no nonempty match. -/
def findLongestMatch (a b : List Char) : Nat × Nat × Nat :=
  let best := flmRows (tailsL b) 0 (tailsL a)
  if best.2.2 = 0 then (0, 0, 0) else best

/-- Total size of all matching blocks (`get_matching_blocks` recursion):
find the longest match, recurse left and right of it.  `fuel` bounds the
recursion depth; since every recursive call strictly shrinks the combined
length, `a.length + b.length + 1` is always enough. -/
def matchingTotalFuel : Nat → List Char → List Char → Nat
  | 0, _, _ => 0
  | fuel + 1, a, b =>
    let r := findLongestMatch a b
    if r.2.2 = 0 then 0
    else
      matchingTotalFuel fuel (a.take r.1) (b.take r.2.1) + r.2.2 +
        matchingTotalFuel fuel (a.drop (r.1 + r.2.2)) (b.drop (r.2.1 + r.2.2))

/-- `M`: the number of matched elements between `a` and `b`. -/
def seqMatches (a b : List Char) : Nat :=
  matchingTotalFuel (a.length + b.length + 1) a b

/-- `SequenceMatcher(None, a, b).ratio() = 2*M/T` (and `1.0` for two empty
sequences), computed exactly in `ℚ`. -/
def ratioQ (a b : List Char) : ℚ :=
  if a.length + b.length = 0 then 1
  else (2 * (seqMatches a b : ℚ)) / ((a.length + b.length : Nat) : ℚ)

/-! ## `dupe_check_recent_torrents` (dupe_checker.py:15-41) -/

/-- A best-guess `(torrent_id, artist, title)` tuple parsed from the site
log (`get_uploads_from_log`). -/
structure Upload where
  torrentId : Nat
  artist : String
  title : String
deriving DecidableEq, Repr

/-- `upload[1] + upload[2]`: the artist+title concatenation used to skip
different torrents of the same release. -/
def uploadKey (u : Upload) : String := u.artist ++ u.title

/-- The maximum `SequenceMatcher` ratio between the first search string and
any comparison string rebuilt from a log entry (the inner loop of
`dupe_check_recent_torrents`, starting from `ratio = 0`). -/
def maxCompRatio (searchstr : String) (u : Upload) : ℚ :=
  (generate_dupe_check_searchstrs [(u.artist, "main")] (some u.title) none).foldl
    (fun m c => max m (ratioQ searchstr.toList c.toList)) 0

/-- The loop of `dupe_check_recent_torrents`: skip uploads whose
artist+title key was already seen, otherwise keep the upload exactly when
its maximum comparison ratio strictly exceeds the tolerance. -/
def dupeGo (tol : ℚ) (searchstr : String) : List Upload → List String → List Upload
  | [], _ => []
  | u :: rest, seen =>
    if uploadKey u ∈ seen then dupeGo tol searchstr rest seen
    else if tol < maxCompRatio searchstr u then
      u :: dupeGo tol searchstr rest (seen ++ [uploadKey u])
    else dupeGo tol searchstr rest (seen ++ [uploadKey u])

/-- `dupe_check_recent_torrents` (dupe_checker.py:15-41): score the recent
uploads from the log against `searchstrs[0]` (an empty `searchstrs` makes
the Python raise `IndexError`, embedded as `none`); the tolerance is the
configured `cfg.upload.log_dupe_tolerance` (default 0.5). -/
def dupe_check_recent_torrents (tol : ℚ) (searchstrs : List String)
    (recent_uploads : List Upload) : Option (List Upload) :=
  match searchstrs with
  | [] => none
  | s :: _ => some (dupeGo tol s recent_uploads [])

/-- A log upload whose single comparison string scores exactly 1/2 against
search string "b" (match "b", sizes 1 and 3: `2*1/4 = 1/2`). -/
def upload05 : Upload := ⟨1, "b", "c"⟩

/-- Artist of the 0.51-scoring upload: 51 letters `c`. -/
def cRun51 : String := (List.replicate 51 'c').asString

/-- Title of the 0.51-scoring upload: 48 letters `y`. -/
def yRun48 : String := (List.replicate 48 'y').asString

/-- A search string of length 100 sharing exactly a 51-character block with
the comparison string rebuilt from `upload051` (`2*51/200 = 51/100`). -/
def searchstr051 : String :=
  (List.replicate 51 'c' ++ List.replicate 49 'x').asString

/-- The comparison string `generate_dupe_check_searchstrs` rebuilds from
`upload051` (length 100). -/
def comp051 : String :=
  (List.replicate 51 'c' ++ ' ' :: List.replicate 48 'y').asString

/-- A log upload whose single comparison string scores exactly 51/100
against `searchstr051`. -/
def upload051 : Upload := ⟨2, cRun51, yRun48⟩

/-! ## `get_search_results` aggregation (dupe_checker.py:163-172) -/

/-- A structured search result (`ReleaseRecord`): the browse-result fields
the dupe checker reads (`print_search_results`, `_prompt_for_group_id`,
`_confirm_group_id`).  Python compares these as whole dicts
(`if release not in results`), embedded as structure equality. -/
structure Release where
  groupId : Nat
  artist : String
  groupName : String
  groupYear : Nat
  releaseType : Nat
  tags : List String
deriving DecidableEq, Repr

/-- One step of the aggregation loop:
`if release not in results: results.append(release)`. -/
def aggregateStep (results : List Release) (r : Release) : List Release :=
  if r ∈ results then results else results ++ [r]

/-- The aggregation of `get_search_results`: fold every per-query result
batch, appending each release not already present (by full record
equality). -/
def get_search_results_aggregate (batches : List (List Release)) : List Release :=
  batches.foldl (fun acc releases => releases.foldl aggregateStep acc) []

/-- The spec's words for the aggregation result (refinement comparator):
deduplicate the concatenation of all batches keeping the first occurrence
of each record, in first-seen order. -/
def specFirstSeenDedup : List Release → List Release → List Release
  | [], _ => []
  | r :: rest, seen =>
    if r ∈ seen then specFirstSeenDedup rest seen
    else r :: specFirstSeenDedup rest (seen ++ [r])

/-- First-seen deduplication by full record equality (spec §4.3). -/
def specFirstSeen (l : List Release) : List Release :=
  specFirstSeenDedup l []

/-! ## `label_rls` (trackers/base.py:236-283) -/

/-- A torrent inside a browse-result group (the fields `label_rls`
reads). -/
structure Torrent where
  format : String
  media : String
deriving DecidableEq, Repr

/-- A browse-result group as consumed by `label_rls`: `artist` is the
flat display string (may be empty/falsy), `artists` the optional
structured artist list (`"artists" in group`), already reduced to the
name list that `compile_artists` consumes. -/
structure BrowseGroup where
  artist : String
  artists : Option (List String)
  groupYear : Nat
  groupName : String
  releaseType : Nat
  groupId : Nat
  torrents : List Torrent
deriving DecidableEq, Repr

/-- `SearchReleaseData` (trackers/base.py:42-45). -/
structure SearchReleaseData where
  lossless : Bool
  lossless_web : Bool
  year : Nat
  artist : String
  album : String
  release_type : Nat
  url : String
deriving DecidableEq, Repr

/-- Embeds `cfg.upload.formatting.various_artist_word` (configuration
value read by `compile_artists`). -/
def variousArtistWordCfg : String := "Various Artists"

/-- `compile_artists` (trackers/base.py:533-537): the configured various
artist word for compilations (`release_type == 7`) or more than three
artists; otherwise the names joined with `" & "`. -/
def compile_artists (artists : List String) (release_type : Nat) : String :=
  if release_type == 7 || artists.length > 3 then variousArtistWordCfg
  else String.intercalate " & " artists

/-- The body of the `label_rls` result loop: build one `SearchReleaseData`
from a browse group.  `unescape` abstracts the external `html.unescape`. -/
def toSRD (unescape : String → String) (baseUrl : String) (g : BrowseGroup) :
    SearchReleaseData :=
  { lossless := g.torrents.any (fun t => t.format == "FLAC")
    lossless_web := g.torrents.any (fun t => t.format == "FLAC" && t.media == "WEB")
    year := g.groupYear
    artist :=
      if g.artist = "" then
        match g.artists with
        | some l => unescape (compile_artists l g.releaseType)
        | none => ""
      else g.artist
    album := unescape g.groupName
    release_type := g.releaseType
    url := baseUrl ++ "/torrents.php?id=" ++ toString g.groupId }

/-- One step of building the Python dict `{r.url: r for r in releases}`:
an existing key keeps its position but takes the new value, a new key is
appended. -/
def upsertByUrl (acc : List (String × SearchReleaseData))
    (r : SearchReleaseData) : List (String × SearchReleaseData) :=
  if acc.any (fun p => p.1 == r.url) then
    acc.map (fun p => if p.1 == r.url then (p.1, r) else p)
  else acc ++ [(r.url, r)]

/-- `list({r.url: r for r in releases}.values())`: deduplicate by URL,
keeping first-occurrence key order and last-occurrence values. -/
def dedupeByUrl (l : List SearchReleaseData) : List SearchReleaseData :=
  (l.foldl upsertByUrl []).map (fun p => p.2)

/-- A paginated browse response: `pages` is `none` when the `"pages"` key
is absent. -/
structure BrowseResp where
  pages : Option Nat
  results : List BrowseGroup

/-- `label_rls` (trackers/base.py:236-283): the initial request
(`fetch none`), then pages `2 .. max(3, pages) - 1`, then page `"1"`
explicitly again; all results are concatenated, mapped to
`SearchReleaseData` and finally deduplicated by URL. -/
def label_rls (unescape : String → String) (baseUrl : String)
    (fetch : Option Nat → BrowseResp) : List SearchReleaseData :=
  let first := fetch none
  match first.pages with
  | none => []
  | some pages =>
    let mid := (List.range' 2 (max 3 pages - 2)).flatMap
      (fun i => (fetch (some i)).results)
    let all := first.results ++ mid ++ (fetch (some 1)).results
    dedupeByUrl (all.map (toSRD unescape baseUrl))

/-- Concrete first browse group of the C4 counterexample run. -/
def bgOne : BrowseGroup :=
  { artist := "A", artists := none, groupYear := 2020, groupName := "X"
    releaseType := 1, groupId := 10, torrents := [⟨"FLAC", "WEB"⟩] }

/-- Concrete second-page browse group of the C4 counterexample run. -/
def bgTwo : BrowseGroup :=
  { artist := "B", artists := none, groupYear := 2021, groupName := "Y"
    releaseType := 1, groupId := 20, torrents := [⟨"MP3", "CD"⟩] }

/-- A two-page browse responder: the initial call and the explicit
page-1 call both return `bgOne`, page 2 returns `bgTwo`. -/
def fetchC4 : Option Nat → BrowseResp
  | none => ⟨some 2, [bgOne]⟩
  | some 1 => ⟨none, [bgOne]⟩
  | some _ => ⟨none, [bgTwo]⟩

/-! ## The candidate-choice prompts (dupe_checker.py:63-137, 263-305)

The interactive loops are embedded as pure functions over a scripted list
of user input lines; an exhausted script is the still-running loop
(`stuck`).  `urllib.parse` and `get_redirect_torrentgroupid` are external
collaborators, abstracted as oracle functions in `PromptEnv`. -/

/-- Result of one of the two prompt loops: a resolved group id
(`return group_id`), a new group (`return None`), `click.Abort`,
`AbortAndDeleteFolder`, or a script that ran out (the loop would
re-prompt). -/
inductive PromptResult
  | group (g : Nat)
  | newGroup
  | aborted
  | abortDelete
  | stuck
deriving DecidableEq, Repr

/-- The `id` / `torrentid` query parameters extracted from a pasted URL
(`parse.parse_qs(parse.urlparse(...).query)`). -/
structure UrlQuery where
  qid : Option Nat
  qtorrentid : Option Nat

/-- External collaborators of the prompt loops: the site base URL, the
redirect lookup `get_redirect_torrentgroupid` (`none` embeds a raised
exception: no redirect `Location`, a network abort, …) and the URL query
parser. -/
structure PromptEnv where
  baseUrl : String
  redirect : Nat → Option Nat
  urlQuery : String → UrlQuery

/-- Python `s.strip()`: leading and trailing whitespace removed. -/
def pyStrip (s : String) : String :=
  ((s.toList.dropWhile Char.isWhitespace).reverse.dropWhile
    Char.isWhitespace).reverse.asString

/-- Python `s.strip().isdigit()` plus `int(s)`: `some n` when the stripped
input is one or more digits. -/
def parseNumericInput (s : String) : Option Nat :=
  let t := pyStrip s
  if t.length > 0 && t.toList.all Char.isDigit then
    some (t.toList.foldl (fun n c => n * 10 + (c.toNat - '0'.toNat)) 0)
  else none

/-- Python `s.lower()` (ASCII). -/
def pyLower (s : String) : String := (s.toList.map Char.toLower).asString

/-- Python `s.startswith(pre)`. -/
def startsWithB (pre s : String) : Bool := isPrefixB pre.toList s.toList

/-- `_prompt_for_recent_upload_results` (dupe_checker.py:63-137): interpret
inputs in priority order — numeric (`0` mapped to `1`; inside
`1..len(recent_uploads)` resolve the picked upload's torrent id through
the redirect lookup, any redirect failure re-prompts; otherwise the
number itself is the group id), site torrent URL (`id` parameter direct,
`torrentid` through the redirect lookup where a failure raises
`click.Abort`, neither re-prompts), `a`bort, `d`elete (only when
deletion is offered), `n`ew/blank, anything else re-prompts. -/
def promptRecent (env : PromptEnv) (uploads : List Upload)
    (offerDeletion : Bool) : List String → PromptResult
  | [] => .stuck
  | input :: rest =>
    match parseNumericInput input with
    | some n0 =>
      let n := if n0 = 0 then 1 else n0
      if ¬ uploads.isEmpty ∧ 1 ≤ n ∧ n ≤ uploads.length then
        match uploads.get? (n - 1) with
        | some u =>
          match env.redirect u.torrentId with
          | some g => .group g
          | none => promptRecent env uploads offerDeletion rest
        | none => .stuck
      else .group n
    | none =>
      if startsWithB (env.baseUrl ++ "/torrents.php") (pyLower (pyStrip input)) then
        match (env.urlQuery input).qid with
        | some i => .group i
        | none =>
          match (env.urlQuery input).qtorrentid with
          | some t =>
            match env.redirect t with
            | some g => .group g
            | none => .aborted
          | none => promptRecent env uploads offerDeletion rest
      else if startsWithB "a" (pyLower input) then .aborted
      else if startsWithB "d" (pyLower input) && offerDeletion then .abortDelete
      else if startsWithB "n" (pyLower input) || pyStrip input = "" then .newGroup
      else promptRecent env uploads offerDeletion rest

/-- `_prompt_for_group_id` (dupe_checker.py:263-305): numeric input is
decremented (`0` and `1` both become index 0); an index inside the result
list resolves to that result's `groupId`, outside it the original number
is the group id; URL and letter commands as in the recent-uploads
prompt. -/
def promptGroup (env : PromptEnv) (results : List Release)
    (offerDeletion : Bool) : List String → PromptResult
  | [] => .stuck
  | input :: rest =>
    match parseNumericInput input with
    | some n0 =>
      let idx := if n0 ≤ 1 then 0 else n0 - 1
      if h : idx < results.length then .group (results.get ⟨idx, h⟩).groupId
      else .group (idx + 1)
    | none =>
      if startsWithB (env.baseUrl ++ "/torrents.php") (pyLower (pyStrip input)) then
        match (env.urlQuery input).qid with
        | some i => .group i
        | none =>
          match (env.urlQuery input).qtorrentid with
          | some t =>
            match env.redirect t with
            | some g => .group g
            | none => .aborted
          | none => promptGroup env results offerDeletion rest
      else if startsWithB "a" (pyLower input) then .aborted
      else if startsWithB "d" (pyLower input) && offerDeletion then .abortDelete
      else if startsWithB "n" (pyLower input) || pyStrip input = "" then .newGroup
      else promptGroup env results offerDeletion rest

/-! ## `_confirm_group_id` (dupe_checker.py:308-374) -/

/-- Result of the confirm-group dialogue. -/
inductive ConfirmResult
  | yes
  | no
  | aborted
  | abortDelete
  | stuck
deriving DecidableEq, Repr

/-- The answer loop of `_confirm_group_id`: blank input takes the default
`"Y"`; the first character, lowercased, selects abort / delete / yes /
new-group; anything else re-asks. -/
def confirmLoop : List String → ConfirmResult
  | [] => .stuck
  | ans :: rest =>
    let eff := if ans = "" then "Y" else ans
    match eff.toList.head? with
    | some c =>
      if c.toLower = 'a' then .aborted
      else if c.toLower = 'd' then .abortDelete
      else if c.toLower = 'y' then .yes
      else if c.toLower = 'n' then .no
      else confirmLoop rest
    | none => .stuck

/-- `_confirm_group_id` (dupe_checker.py:349-374): look the chosen group
up among the structured results; with no matching structured result,
`print_torrents` fetches the group live and a `RequestError` (unknown
group) raises `click.Abort`; then run the yes/new/abort/delete answer
loop.  (The torrent listing itself is output only and is elided.) -/
def confirmGroup (groupExists : Nat → Bool) (g : Nat) (results : List Release)
    (answers : List String) : ConfirmResult :=
  match results.find? (fun r => r.groupId == g) with
  | some _ => confirmLoop answers
  | none => if groupExists g then confirmLoop answers else .aborted

/-! ## `get_search_results` and `check_existing_group`
(dupe_checker.py:140-187) -/

/-- One attempt of the search loop: the gathered per-query batches, or an
exception escaping the transport. -/
inductive SearchStep
  | ok (batches : List (List Release))
  | err
deriving DecidableEq, Repr

/-- Result of `get_search_results`. -/
inductive GSRes
  | results (rs : List Release)
  | aborted
  | stuck
deriving DecidableEq, Repr

/-- The observable dialogue events of one `check_existing_group` run:
the search-error retry prompt, the two candidate prompts, and the
confirm-group dialogue. -/
inductive Ev
  | retryPrompt
  | recentPrompt
  | groupPrompt
  | confirmPrompt
deriving DecidableEq, Repr

/-- `get_search_results` (dupe_checker.py:163-187): each loop iteration
issues all queries (`steps` scripts their joint outcome); a success
returns the aggregation, an error shows the retry prompt and continues or
raises `click.Abort` according to the scripted answer. -/
def get_search_results : List SearchStep → List Bool → GSRes × List Ev
  | [], _ => (.stuck, [])
  | .ok batches :: _, _ => (.results (get_search_results_aggregate batches), [])
  | .err :: rest, retry :: retries =>
    if retry then
      let sub := get_search_results rest retries
      (sub.1, .retryPrompt :: sub.2)
    else (.aborted, [.retryPrompt])
  | .err :: _, [] => (.stuck, [.retryPrompt])

/-- Result of `check_existing_group`: `ok (some g)` uploads to group `g`,
`ok none` to a new group; `aborted` / `abortDelete` embed the raised
`click.Abort` / `AbortAndDeleteFolder`; `pyError` an uncaught Python
error (empty search-string list); `stuck` an exhausted input script. -/
inductive CEGRes
  | ok (g : Option Nat)
  | aborted
  | abortDelete
  | pyError
  | stuck
deriving DecidableEq, Repr

/-- Everything one `check_existing_group` run consumes: the scripted
search outcomes and retry answers, the configuration flags
(`cfg.upload.requests.check_recent_uploads`,
`cfg.upload.log_dupe_tolerance`), the search strings, the log uploads
(`get_uploads_from_log`), the prompt collaborators and scripted inputs,
the confirm answers, and the live group lookup used by
`print_torrents`. -/
structure CEGEnv where
  searchSteps : List SearchStep
  retryAnswers : List Bool
  checkRecentUploads : Bool
  logTolerance : ℚ
  searchstrs : List String
  logUploads : List Upload
  promptEnv : PromptEnv
  promptInputs : List String
  confirmAnswers : List String
  groupExists : Nat → Bool
  offerDeletion : Bool

/-- `check_existing_group` (dupe_checker.py:140-160): search; on empty
results with recent-upload checking enabled run the log fallback and its
prompt, otherwise print the results and run the structured prompt; a
truthy resolved group id goes through the confirm dialogue and is
returned only on `yes` (`no` returns `None`); a falsy resolved id
(`None`, or the literal `0`) is returned as-is without confirmation. -/
def check_existing_group (env : CEGEnv) : CEGRes × List Ev :=
  match get_search_results env.searchSteps env.retryAnswers with
  | (.aborted, evs) => (.aborted, evs)
  | (.stuck, evs) => (.stuck, evs)
  | (.results rs, evs) =>
    let pres :=
      if rs.isEmpty && env.checkRecentUploads then
        match dupe_check_recent_torrents env.logTolerance env.searchstrs
            env.logUploads with
        | none => (PromptResult.stuck, evs ++ [Ev.recentPrompt], true)
        | some recent =>
          (promptRecent env.promptEnv recent env.offerDeletion env.promptInputs,
            evs ++ [Ev.recentPrompt], false)
      else
        (promptGroup env.promptEnv rs env.offerDeletion env.promptInputs,
          evs ++ [Ev.groupPrompt], false)
    match pres with
    | (_, evs2, true) => (.pyError, evs2)
    | (.aborted, evs2, false) => (.aborted, evs2)
    | (.abortDelete, evs2, false) => (.abortDelete, evs2)
    | (.stuck, evs2, false) => (.stuck, evs2)
    | (.newGroup, evs2, false) => (.ok none, evs2)
    | (.group g, evs2, false) =>
      if g ≠ 0 then
        match confirmGroup env.groupExists g rs env.confirmAnswers with
        | .yes => (.ok (some g), evs2 ++ [Ev.confirmPrompt])
        | .no => (.ok none, evs2 ++ [Ev.confirmPrompt])
        | .aborted => (.aborted, evs2 ++ [Ev.confirmPrompt])
        | .abortDelete => (.abortDelete, evs2 ++ [Ev.confirmPrompt])
        | .stuck => (.stuck, evs2 ++ [Ev.confirmPrompt])
      else (.ok (some 0), evs2)

/-- A prompt environment with no working collaborators, for runs that
never reach a prompt. -/
def trivialPromptEnv : PromptEnv :=
  ⟨"", fun _ => none, fun _ => ⟨none, none⟩⟩

/-- A run whose single search attempt errors and whose scripted user
declines the retry. -/
def c5Env : CEGEnv :=
  { searchSteps := [.err], retryAnswers := [false], checkRecentUploads := true
    logTolerance := 0, searchstrs := [], logUploads := []
    promptEnv := trivialPromptEnv, promptInputs := [], confirmAnswers := []
    groupExists := fun _ => false, offerDeletion := true }

/-- A run with one successful empty search, recent checking enabled, an
empty log, the scripted input `"5"` (a literal group id at the recent
prompt) and a confirming answer. -/
def c2Env : CEGEnv :=
  { searchSteps := [.ok [[]]], retryAnswers := [], checkRecentUploads := true
    logTolerance := (1 : ℚ) / 2, searchstrs := ["b"], logUploads := []
    promptEnv := trivialPromptEnv, promptInputs := ["5"]
    confirmAnswers := ["y"], groupExists := fun _ => true
    offerDeletion := true }

/-- The same run with the confirm answer `"n"` (new group). -/
def c2EnvNo : CEGEnv :=
  { c2Env with confirmAnswers := ["n"] }

/-! ## C8 -/

/-- Six similar recent uploads — one more than the five the prompt
displays. -/
def uploadsC8 : List Upload :=
  [⟨11, "a1", "t1"⟩, ⟨12, "a2", "t2"⟩, ⟨13, "a3", "t3"⟩,
   ⟨14, "a4", "t4"⟩, ⟨15, "a5", "t5"⟩, ⟨16, "a6", "t6"⟩]

/-- A prompt environment whose redirect lookup resolves torrent 16 to
group 99. -/
def envC8 : PromptEnv :=
  ⟨"https://site", fun t => if t = 16 then some 99 else none,
    fun _ => ⟨none, none⟩⟩

/-- The recent upload of the C10 witness. -/
def uploadC10 : Upload := ⟨16, "a", "t"⟩

/-- The structured result of the C10 witness. -/
def releaseC10 : Release := ⟨123, "art", "alb", 2020, 1, []⟩

end Salmon

namespace Salmon

/-! ## C1 -/

theorem filterGo_kept_not_subset {a b : String} :
    ∀ (rest kept : List String), a ∈ kept → b ∈ filterGo rest kept →
      wordSubsetB a b = false := by
  intro rest
  induction rest with
  | nil => intro kept _ hb; simp [filterGo] at hb
  | cons s tl ih =>
    intro kept ha hb
    by_cases hdrop : kept.any (fun p => wordSubsetB p s) = true
    · rw [filterGo, if_pos hdrop] at hb
      exact ih kept ha hb
    · rw [filterGo, if_neg hdrop] at hb
      rcases List.mem_cons.mp hb with rfl | hb
      · rcases Bool.eq_false_or_eq_true (wordSubsetB a b) with h | h
        · exact absurd (List.any_eq_true.mpr ⟨a, ha, h⟩) hdrop
        · exact h
      · exact ih (kept ++ [s]) (List.mem_append_left _ ha) hb

theorem filterGo_pairwise :
    ∀ (rest kept : List String),
      (filterGo rest kept).Pairwise (fun a b => wordSubsetB a b = false) := by
  intro rest
  induction rest with
  | nil => intro kept; simp [filterGo]
  | cons s tl ih =>
    intro kept
    by_cases hdrop : kept.any (fun p => wordSubsetB p s) = true
    · rw [filterGo, if_pos hdrop]; exact ih kept
    · rw [filterGo, if_neg hdrop]
      refine List.Pairwise.cons ?_ (ih (kept ++ [s]))
      intro b hb
      exact filterGo_kept_not_subset tl (kept ++ [s]) (by simp) hb

/-- C1 (corrected): the output of `filter_unnecessary_searchstrs` is
pairwise free of word-set inclusions *in processing order*: no kept
string's word set is a subset of the word set of any string kept after
it (candidates are processed shortest-first).  Equivalently, no member's
word set is a strict superset of an earlier-kept member's word set — but a
member kept *earlier* may still have a word set strictly containing a
later member's word set, so the claim as stated (no strict-superset pair
in either direction) is false; see the counterexample. -/
theorem c1_filter_pairwise_no_subset (l : List String) :
    (filter_unnecessary_searchstrs l).Pairwise
      (fun a b => wordSubsetB a b = false) :=
  filterGo_pairwise (sortByLen l) []

/-- C1 counterexample: on input `["x y", "x x x"]` the filter keeps both
strings (the earlier-kept `"x y"` has word set `{x, y}`, which is *not* a
subset of `{x}`, so `"x x x"` is also kept), yet `{x, y}` is a strict
superset of `{x}` — the claimed invariant "no member's word set is a
strict superset of another member's word set" fails on the output. -/
theorem c1_counterexample :
    noStrictWordSupersetPairs
      (filter_unnecessary_searchstrs ["x y", "x x x"]) = false := by
  decide

/-! ## C3 -/

/-- C3 (corrected): `recheck_dupe` re-runs the full protocol iff the newly
derived query set is *not contained* (by membership) in the previous
query set — i.e. some new query is absent from the previous set, or the
previous set is empty while the new one is not.  Equal sets are a no-op,
but so is a newly derived set that is a strict subset of the previous
one, contradicting the claim that any membership difference triggers a
re-run. -/
theorem c3_rerun_iff_not_subset (searchstrs : List String)
    (artists : List (String × String)) (title catno : Option String) :
    recheck_dupe_reruns searchstrs artists title catno = true ↔
      ¬ (∀ n ∈ generate_dupe_check_searchstrs artists title catno,
           n ∈ searchstrs) := by
  unfold recheck_dupe_reruns
  cases searchstrs with
  | nil =>
    simp
    exact ⟨fun h => List.exists_mem_of_ne_nil _ h,
      fun ⟨_, hx⟩ => List.ne_nil_of_mem hx⟩
  | cons s ss => simp [List.any_eq_true]

/-- C3 counterexample: with previous queries
`["dj x party vol 2", "dj x party volume 2"]` (exactly the set derived
from artist "dj x" and title "Party Vol. 2") and the title edited to
"Party Vol 2", the newly derived set is the strict subset
`["dj x party vol 2"]` — the sets differ by membership, yet the code does
not re-run, refuting the claim that any membership difference triggers a
re-run. -/
theorem c3_counterexample :
    generate_dupe_check_searchstrs [("dj x", "main")] (some "Party Vol. 2") none
        = ["dj x party vol 2", "dj x party volume 2"] ∧
      generate_dupe_check_searchstrs [("dj x", "main")] (some "Party Vol 2") none
        = ["dj x party vol 2"] ∧
      sameSetB
        (generate_dupe_check_searchstrs [("dj x", "main")] (some "Party Vol 2") none)
        ["dj x party vol 2", "dj x party volume 2"] = false ∧
      recheck_dupe_reruns ["dj x party vol 2", "dj x party volume 2"]
        [("dj x", "main")] (some "Party Vol 2") none = false := by
  refine ⟨by decide, by decide, by decide, by decide⟩

theorem matchLen_le_left : ∀ (x y : List Char), matchLen x y ≤ x.length := by
  intro x
  induction x with
  | nil => intro y; cases y <;> simp [matchLen]
  | cons a as ih =>
    intro y
    cases y with
    | nil => simp [matchLen]
    | cons b bs =>
      by_cases h : a == b
      · simpa [matchLen, h] using ih bs
      · simp [matchLen, h]

theorem matchLen_self : ∀ (x : List Char), matchLen x x = x.length := by
  intro x
  induction x with
  | nil => rfl
  | cons a as ih => simp [matchLen, ih]

theorem tailsL_length_le : ∀ (a : List Char), ∀ sa ∈ tailsL a, sa.length ≤ a.length := by
  intro a
  induction a with
  | nil => intro sa h; simp [tailsL] at h; simp [h]
  | cons c cs ih =>
    intro sa h
    rcases List.mem_cons.mp h with rfl | h
    · exact le_refl _
    · exact le_trans (ih sa h) (Nat.le_succ _)

theorem flmCombine_left {p q : Nat × Nat × Nat} (h : q.2.2 ≤ p.2.2) :
    flmCombine p q = p :=
  if_neg (not_lt.mpr h)

theorem flmCombine_k_le {p q : Nat × Nat × Nat} {n : Nat}
    (hp : p.2.2 ≤ n) (hq : q.2.2 ≤ n) : (flmCombine p q).2.2 ≤ n := by
  unfold flmCombine
  by_cases h : p.2.2 < q.2.2
  · rw [if_pos h]; exact hq
  · rw [if_neg h]; exact hp

theorem flmRow_k_le (ai : Nat) (sa : List Char) :
    ∀ (btails : List (List Char)) (bj : Nat),
      (flmRow ai sa bj btails).2.2 ≤ sa.length := by
  intro btails
  induction btails with
  | nil => intro bj; simp [flmRow]
  | cons sb rest ih =>
    intro bj
    exact flmCombine_k_le (matchLen_le_left sa sb) (ih (bj + 1))

theorem flmRows_k_le (btails : List (List Char)) {n : Nat} :
    ∀ (atails : List (List Char)) (ai : Nat),
      (∀ sa ∈ atails, sa.length ≤ n) →
      (flmRows btails ai atails).2.2 ≤ n := by
  intro atails
  induction atails with
  | nil => intro ai _; simp [flmRows]
  | cons sa rest ih =>
    intro ai h
    exact flmCombine_k_le
      (le_trans (flmRow_k_le ai sa btails 0) (h sa (List.mem_cons_self _ _)))
      (ih (ai + 1) (fun x hx => h x (List.mem_cons_of_mem _ hx)))

theorem findLongestMatch_self (a : List Char) :
    findLongestMatch a a = (0, 0, a.length) := by
  cases a with
  | nil => rfl
  | cons c cs =>
    have hrow : flmRow 0 (c :: cs) 0 (tailsL (c :: cs)) = (0, 0, (c :: cs).length) := by
      show flmCombine (0, 0, matchLen (c :: cs) (c :: cs))
        (flmRow 0 (c :: cs) 1 (tailsL cs)) = _
      rw [matchLen_self]
      exact flmCombine_left (flmRow_k_le 0 (c :: cs) (tailsL cs) 1)
    have hrows : flmRows (tailsL (c :: cs)) 0 (tailsL (c :: cs))
        = (0, 0, (c :: cs).length) := by
      show flmCombine (flmRow 0 (c :: cs) 0 (tailsL (c :: cs)))
        (flmRows (tailsL (c :: cs)) 1 (tailsL cs)) = _
      rw [hrow]
      refine flmCombine_left ?_
      exact flmRows_k_le (tailsL (c :: cs)) (tailsL cs) 1
        (fun sa hsa => le_trans (tailsL_length_le cs sa hsa) (by simp))
    show (if (flmRows (tailsL (c :: cs)) 0 (tailsL (c :: cs))).2.2 = 0 then (0, 0, 0)
      else flmRows (tailsL (c :: cs)) 0 (tailsL (c :: cs))) = _
    rw [hrows]
    simp

theorem matchingTotalFuel_nil : ∀ (fuel : Nat),
    matchingTotalFuel fuel [] [] = 0 := by
  intro fuel
  cases fuel with
  | zero => rfl
  | succ f => rfl

theorem seqMatches_self (a : List Char) : seqMatches a a = a.length := by
  unfold seqMatches
  show matchingTotalFuel (a.length + a.length + 1) a a = a.length
  cases a with
  | nil => rfl
  | cons c cs =>
    rw [show (c :: cs).length + (c :: cs).length + 1 =
        ((c :: cs).length + (c :: cs).length) + 1 from rfl]
    rw [matchingTotalFuel]
    rw [findLongestMatch_self]
    have hk : ((0 : Nat), (0 : Nat), (c :: cs).length).2.2 = (c :: cs).length := rfl
    rw [if_neg (by simp)]
    simp [matchingTotalFuel_nil]

/-! ## C7 -/

/-- C7 (corrected): identity holds — `ratio(a, a) == 1.0` for every
sequence `a` — but symmetry does not hold in general (see the
counterexample), so only the identity half of the claim survives. -/
theorem c7_ratio_self (a : List Char) : ratioQ a a = 1 := by
  unfold ratioQ
  cases a with
  | nil => simp
  | cons c cs =>
    rw [if_neg (by simp)]
    rw [seqMatches_self]
    have hne : (((c :: cs).length + (c :: cs).length : Nat) : ℚ) ≠ 0 :=
      Nat.cast_ne_zero.mpr (by simp)
    rw [div_eq_one_iff_eq hne]
    push_cast
    ring

/-- C7 counterexample: `SequenceMatcher.ratio` is not symmetric.
`ratio("tide", "diet") = 1/4` (the single block `t` is found first), while
`ratio("diet", "tide") = 1/2` (blocks `d` and `e`), so `ratio(a, b) =
ratio(b, a)` fails at this concrete input. -/
theorem c7_counterexample :
    ratioQ "tide".toList "diet".toList = 1 / 4 ∧
      ratioQ "diet".toList "tide".toList = 1 / 2 ∧
      ratioQ "tide".toList "diet".toList ≠ ratioQ "diet".toList "tide".toList := by
  have h1 : seqMatches "tide".toList "diet".toList = 1 := by decide
  have h2 : seqMatches "diet".toList "tide".toList = 2 := by decide
  have l1 : "tide".toList.length = 4 := by decide
  have l2 : "diet".toList.length = 4 := by decide
  have e1 : ratioQ "tide".toList "diet".toList = 1 / 4 := by
    unfold ratioQ
    rw [h1, l1, l2]
    norm_num
  have e2 : ratioQ "diet".toList "tide".toList = 1 / 2 := by
    unfold ratioQ
    rw [h2, l1, l2]
    norm_num
  exact ⟨e1, e2, by rw [e1, e2]; norm_num⟩

/-! ## C6 -/

theorem dupeGo_subset (tol : ℚ) (s : String) :
    ∀ (l : List Upload) (seen : List String) (u : Upload),
      u ∈ dupeGo tol s l seen → u ∈ l := by
  intro l
  induction l with
  | nil => intro seen u h; simp [dupeGo] at h
  | cons v rest ih =>
    intro seen u h
    rw [dupeGo] at h
    by_cases h1 : uploadKey v ∈ seen
    · rw [if_pos h1] at h
      exact List.mem_cons_of_mem _ (ih seen u h)
    · rw [if_neg h1] at h
      by_cases h2 : tol < maxCompRatio s v
      · rw [if_pos h2] at h
        rcases List.mem_cons.mp h with rfl | h
        · exact List.mem_cons_self _ _
        · exact List.mem_cons_of_mem _ (ih _ u h)
      · rw [if_neg h2] at h
        exact List.mem_cons_of_mem _ (ih _ u h)

theorem dupeGo_mem_iff (tol : ℚ) (s : String) :
    ∀ (l : List Upload) (seen : List String),
      (l.map uploadKey).Nodup →
      (∀ v ∈ l, uploadKey v ∉ seen) →
      ∀ u ∈ l, (u ∈ dupeGo tol s l seen ↔ tol < maxCompRatio s u) := by
  intro l
  induction l with
  | nil => intro seen _ _ u hu; simp at hu
  | cons v rest ih =>
    intro seen hnd hseen u hu
    have hkv : uploadKey v ∉ seen := hseen v (List.mem_cons_self _ _)
    have hvrest : uploadKey v ∉ rest.map uploadKey := (List.nodup_cons.mp (by simpa using hnd)).1
    have hndrest : (rest.map uploadKey).Nodup := (List.nodup_cons.mp (by simpa using hnd)).2
    rw [dupeGo, if_neg hkv]
    by_cases h2 : tol < maxCompRatio s v
    · rw [if_pos h2]
      rcases List.mem_cons.mp hu with rfl | hu
      · simp [h2]
      · have hne : u ≠ v := by
          intro heq
          exact hvrest (heq ▸ List.mem_map_of_mem uploadKey hu)
        rw [List.mem_cons]
        rw [or_iff_right hne]
        exact ih (seen ++ [uploadKey v]) hndrest
          (fun w hw => by
            simp only [List.mem_append, List.mem_singleton]
            rintro (hws | hwk)
            · exact hseen w (List.mem_cons_of_mem _ hw) hws
            · exact hvrest (hwk ▸ List.mem_map_of_mem uploadKey hw))
          u hu
    · rw [if_neg h2]
      rcases List.mem_cons.mp hu with rfl | hu
      · constructor
        · intro hmem
          have : u ∈ rest := by
            have hsub := dupeGo_subset tol s rest (seen ++ [uploadKey u]) u hmem
            exact hsub
          exact absurd (List.mem_map_of_mem uploadKey this) hvrest
        · intro h; exact absurd h h2
      · exact ih (seen ++ [uploadKey v]) hndrest
          (fun w hw => by
            simp only [List.mem_append, List.mem_singleton]
            rintro (hws | hwk)
            · exact hseen w (List.mem_cons_of_mem _ hw) hws
            · exact hvrest (hwk ▸ List.mem_map_of_mem uploadKey hw))
          u hu

/-- C6 (confirmed): for recent uploads with pairwise-distinct artist+title
keys (entries not discarded by the same-release skip), an upload is kept
by `dupe_check_recent_torrents` **iff** its maximum similarity ratio
against the first search string strictly exceeds the tolerance; the
boundary cases (maximum ratio exactly 1/2 excluded, exactly 51/100
included, at tolerance 1/2) are exercised in the witness. -/
theorem c6_tolerance_strict (tol : ℚ) (s : String) (rest : List String)
    (uploads hits : List Upload)
    (hkeys : (uploads.map uploadKey).Nodup)
    (hrun : dupe_check_recent_torrents tol (s :: rest) uploads = some hits)
    (u : Upload) (hu : u ∈ uploads) :
    u ∈ hits ↔ tol < maxCompRatio s u := by
  have hhits : hits = dupeGo tol s uploads [] := by
    simpa [dupe_check_recent_torrents] using hrun.symm
  subst hhits
  exact dupeGo_mem_iff tol s uploads [] hkeys (by simp) u hu

set_option maxRecDepth 8000 in
/-- C6 witness: at tolerance 1/2, the upload with maximum ratio exactly
1/2 is excluded and the upload with maximum ratio exactly 51/100 is
included, by the strict-inequality theorem. -/
theorem c6_witness :
    maxCompRatio "b" upload05 = 1 / 2 ∧
      upload05 ∉ dupeGo (1 / 2) "b" [upload05] [] ∧
      maxCompRatio searchstr051 upload051 = 51 / 100 ∧
      upload051 ∈ dupeGo (1 / 2) searchstr051 [upload051] [] := by
  have hc1 : generate_dupe_check_searchstrs [("b", "main")] (some "c") none
      = ["b c"] := by decide
  have hs1 : seqMatches "b".toList "b c".toList = 1 := by decide
  have hr1 : ratioQ "b".toList "b c".toList = 1 / 2 := by
    unfold ratioQ
    rw [hs1, show "b".toList.length = 1 from by decide,
      show "b c".toList.length = 3 from by decide]
    norm_num
  have hm1 : maxCompRatio "b" upload05 = 1 / 2 := by
    unfold maxCompRatio
    show List.foldl _ 0 (generate_dupe_check_searchstrs [("b", "main")] (some "c") none) = _
    rw [hc1]
    simp only [List.foldl_cons, List.foldl_nil]
    rw [hr1]
    rw [max_eq_right (by norm_num : (0 : ℚ) ≤ 1 / 2)]
  have hc2 : generate_dupe_check_searchstrs [(cRun51, "main")] (some yRun48) none
      = [comp051] := by decide
  have hs2 : seqMatches searchstr051.toList comp051.toList = 51 := by decide
  have hr2 : ratioQ searchstr051.toList comp051.toList = 51 / 100 := by
    unfold ratioQ
    rw [hs2, show searchstr051.toList.length = 100 from by decide,
      show comp051.toList.length = 100 from by decide]
    norm_num
  have hm2 : maxCompRatio searchstr051 upload051 = 51 / 100 := by
    unfold maxCompRatio
    show List.foldl _ 0 (generate_dupe_check_searchstrs [(cRun51, "main")] (some yRun48) none) = _
    rw [hc2]
    simp only [List.foldl_cons, List.foldl_nil]
    rw [hr2]
    rw [max_eq_right (by norm_num : (0 : ℚ) ≤ 51 / 100)]
  refine ⟨hm1, ?_, hm2, ?_⟩
  · intro hmem
    have hiff := c6_tolerance_strict (1 / 2) "b" [] [upload05]
      (dupeGo (1 / 2) "b" [upload05] []) (by decide) rfl upload05
      (List.mem_singleton.mpr rfl)
    have hlt := hiff.mp hmem
    rw [hm1] at hlt
    exact absurd hlt (lt_irrefl _)
  · have hiff := c6_tolerance_strict (1 / 2) searchstr051 [] [upload051]
      (dupeGo (1 / 2) searchstr051 [upload051] []) (by decide) rfl upload051
      (List.mem_singleton.mpr rfl)
    refine hiff.mpr ?_
    rw [hm2]
    norm_num

/-! ## C9 -/

theorem foldl_aggregateStep_eq :
    ∀ (l : List Release) (acc : List Release),
      l.foldl aggregateStep acc = acc ++ specFirstSeenDedup l acc := by
  intro l
  induction l with
  | nil => intro acc; simp [specFirstSeenDedup]
  | cons r rest ih =>
    intro acc
    show rest.foldl aggregateStep (aggregateStep acc r) = _
    by_cases h : r ∈ acc
    · rw [show aggregateStep acc r = acc from if_pos h, ih acc,
        specFirstSeenDedup, if_pos h]
    · rw [show aggregateStep acc r = acc ++ [r] from if_neg h, ih (acc ++ [r]),
        specFirstSeenDedup, if_neg h]
      simp

theorem specFirstSeenDedup_not_mem_seen :
    ∀ (l seen : List Release) (r : Release),
      r ∈ specFirstSeenDedup l seen → r ∉ seen := by
  intro l
  induction l with
  | nil => intro seen r h; simp [specFirstSeenDedup] at h
  | cons x rest ih =>
    intro seen r h
    rw [specFirstSeenDedup] at h
    by_cases hx : x ∈ seen
    · rw [if_pos hx] at h
      exact ih seen r h
    · rw [if_neg hx] at h
      rcases List.mem_cons.mp h with rfl | h
      · exact hx
      · intro hseen
        exact ih (seen ++ [x]) r h (List.mem_append_left _ hseen)

theorem specFirstSeenDedup_nodup :
    ∀ (l seen : List Release), (specFirstSeenDedup l seen).Nodup := by
  intro l
  induction l with
  | nil => intro seen; simp [specFirstSeenDedup]
  | cons x rest ih =>
    intro seen
    rw [specFirstSeenDedup]
    by_cases hx : x ∈ seen
    · rw [if_pos hx]; exact ih seen
    · rw [if_neg hx]
      refine List.nodup_cons.mpr ⟨?_, ih (seen ++ [x])⟩
      intro hmem
      exact specFirstSeenDedup_not_mem_seen rest (seen ++ [x]) x hmem
        (List.mem_append_right _ (List.mem_singleton.mpr rfl))

theorem foldl_foldl_flatten :
    ∀ (batches : List (List Release)) (acc : List Release),
      batches.foldl (fun acc releases => releases.foldl aggregateStep acc) acc
        = batches.flatten.foldl aggregateStep acc := by
  intro batches
  induction batches with
  | nil => intro acc; rfl
  | cons b rest ih =>
    intro acc
    simp only [List.foldl_cons, List.flatten_cons, List.foldl_append]
    exact ih (b.foldl aggregateStep acc)

/-- C9 (confirmed): `get_search_results` aggregation equals first-seen
deduplication by full record equality of the concatenation of all
per-query batches — so the result is duplicate-free, keeps first-seen
order, and in particular two identical records returned by two different
queries collapse to exactly one entry. -/
theorem c9_aggregate_dedup_by_value (batches : List (List Release)) :
    get_search_results_aggregate batches = specFirstSeen batches.flatten ∧
      (get_search_results_aggregate batches).Nodup ∧
      ∀ r : Release, get_search_results_aggregate [[r], [r]] = [r] := by
  have heq : get_search_results_aggregate batches = specFirstSeen batches.flatten := by
    unfold get_search_results_aggregate specFirstSeen
    rw [foldl_foldl_flatten batches []]
    simpa using foldl_aggregateStep_eq batches.flatten []
  refine ⟨heq, ?_, ?_⟩
  · rw [heq]
    exact specFirstSeenDedup_nodup batches.flatten []
  · intro r
    simp [get_search_results_aggregate, aggregateStep]

/-! ## C4 -/

theorem upsertByUrl_key_eq :
    ∀ (acc : List (String × SearchReleaseData)) (r : SearchReleaseData),
      (∀ p ∈ acc, p.2.url = p.1) →
      ∀ q ∈ upsertByUrl acc r, q.2.url = q.1 := by
  intro acc r hacc q hq
  unfold upsertByUrl at hq
  by_cases h : acc.any (fun p => p.1 == r.url) = true
  · rw [if_pos h] at hq
    rcases List.mem_map.mp hq with ⟨p, hp, hpq⟩
    by_cases hp1 : p.1 == r.url
    · rw [if_pos hp1] at hpq
      rw [← hpq]
      exact (eq_of_beq hp1).symm
    · rw [if_neg hp1] at hpq
      rw [← hpq]
      exact hacc p hp
  · rw [if_neg h] at hq
    rcases List.mem_append.mp hq with hq | hq
    · exact hacc q hq
    · rw [List.mem_singleton.mp hq]

theorem upsertByUrl_keys :
    ∀ (acc : List (String × SearchReleaseData)) (r : SearchReleaseData),
      (upsertByUrl acc r).map Prod.fst = acc.map Prod.fst ∨
      (upsertByUrl acc r).map Prod.fst = acc.map Prod.fst ++ [r.url] := by
  intro acc r
  unfold upsertByUrl
  by_cases h : acc.any (fun p => p.1 == r.url) = true
  · left
    rw [if_pos h]
    rw [List.map_map]
    refine List.map_congr_left ?_
    intro p _
    show (if p.1 == r.url then (p.1, r) else p).1 = p.1
    split <;> rfl
  · right
    rw [if_neg h]
    simp

theorem upsertByUrl_keys_nodup :
    ∀ (acc : List (String × SearchReleaseData)) (r : SearchReleaseData),
      (acc.map Prod.fst).Nodup → ((upsertByUrl acc r).map Prod.fst).Nodup := by
  intro acc r hnd
  unfold upsertByUrl
  by_cases h : acc.any (fun p => p.1 == r.url) = true
  · rw [if_pos h]
    rw [List.map_map]
    have heq : acc.map (Prod.fst ∘ fun p => if p.1 == r.url then (p.1, r) else p)
        = acc.map Prod.fst := by
      refine List.map_congr_left ?_
      intro p _
      show (if p.1 == r.url then (p.1, r) else p).1 = p.1
      split <;> rfl
    rw [heq]
    exact hnd
  · rw [if_neg h]
    rw [List.map_append]
    refine List.Nodup.append hnd (by simp) ?_
    intro x hx hx1
    rcases List.mem_map.mp hx with ⟨p, hp, hpx⟩
    have hpr : p.1 = r.url := by
      have hx2 : x = r.url := by simpa using hx1
      simpa [hx2] using hpx
    exact h (List.any_eq_true.mpr ⟨p, hp, beq_iff_eq.mpr hpr⟩)

theorem foldl_upsert_invariant :
    ∀ (l : List SearchReleaseData) (acc : List (String × SearchReleaseData)),
      (∀ p ∈ acc, p.2.url = p.1) → (acc.map Prod.fst).Nodup →
      (∀ p ∈ l.foldl upsertByUrl acc, p.2.url = p.1) ∧
        ((l.foldl upsertByUrl acc).map Prod.fst).Nodup := by
  intro l
  induction l with
  | nil => intro acc h1 h2; exact ⟨h1, h2⟩
  | cons r rest ih =>
    intro acc h1 h2
    exact ih (upsertByUrl acc r) (upsertByUrl_key_eq acc r h1)
      (upsertByUrl_keys_nodup acc r h2)

theorem dedupeByUrl_urls_nodup (l : List SearchReleaseData) :
    ((dedupeByUrl l).map (fun r => r.url)).Nodup := by
  unfold dedupeByUrl
  obtain ⟨hval, hnd⟩ := foldl_upsert_invariant l [] (by simp) (by simp)
  rw [List.map_map]
  have : (l.foldl upsertByUrl []).map ((fun r => r.url) ∘ fun p => p.2)
      = (l.foldl upsertByUrl []).map Prod.fst :=
    List.map_congr_left (fun p hp => hval p hp)
  rw [this]
  exact hnd

/-- C4 (corrected): `label_rls` does fetch page 1 twice and concatenates
both copies into the raw result list, but the final dedupe-by-URL
(`list({r.url: r for r in releases}.values())`) collapses them: the
returned list never contains two entries with the same URL, so exact
duplicate entries from page 1 do not survive into the return value. -/
theorem c4_label_rls_urls_nodup (unescape : String → String) (baseUrl : String)
    (fetch : Option Nat → BrowseResp) :
    ((label_rls unescape baseUrl fetch).map (fun r => r.url)).Nodup := by
  cases hp : (fetch none).pages with
  | none => simp [label_rls, hp]
  | some pages =>
    simp only [label_rls, hp]
    exact dedupeByUrl_urls_nodup _

/-- C4 counterexample: in a concrete two-page run whose initial call and
explicit page-1 call both return the same group, the raw concatenated
list contains that group's record twice, yet the returned list contains
it exactly once — refuting the claim that both copies are kept and not
deduplicated away. -/
theorem c4_counterexample :
    (((fetchC4 none).results
        ++ (fetchC4 (some 2)).results
        ++ (fetchC4 (some 1)).results).map
      (toSRD (fun s => s) "site")).count (toSRD (fun s => s) "site" bgOne) = 2 ∧
      (label_rls (fun s => s) "site" fetchC4).count
        (toSRD (fun s => s) "site" bgOne) = 1 := by
  refine ⟨by decide, by decide⟩

/-! ## C5 -/

theorem gsr_events_retry :
    ∀ (steps : List SearchStep) (retries : List Bool),
      ∀ e ∈ (get_search_results steps retries).2, e = Ev.retryPrompt := by
  intro steps
  induction steps with
  | nil => intro retries e he; simp [get_search_results] at he
  | cons st rest ih =>
    intro retries e he
    cases st with
    | ok batches => simp [get_search_results] at he
    | err =>
      cases retries with
      | nil =>
        rw [get_search_results] at he
        simpa using he
      | cons r rs =>
        rw [get_search_results] at he
        cases r with
        | true =>
          simp only [if_true] at he
          rcases List.mem_cons.mp he with rfl | he
          · rfl
          · exact ih rs e he
        | false => simpa using he

/-- C5 (confirmed): whenever `get_search_results` ends in `click.Abort`
(the user declined the retry prompt), `check_existing_group` propagates
the abort and neither candidate prompt nor the confirm dialogue is ever
reached — the run's events are retry prompts only. -/
theorem c5_abort_propagation (env : CEGEnv)
    (h : (get_search_results env.searchSteps env.retryAnswers).1 = GSRes.aborted) :
    (check_existing_group env).1 = CEGRes.aborted ∧
      Ev.recentPrompt ∉ (check_existing_group env).2 ∧
      Ev.groupPrompt ∉ (check_existing_group env).2 ∧
      Ev.confirmPrompt ∉ (check_existing_group env).2 := by
  have hev := gsr_events_retry env.searchSteps env.retryAnswers
  rcases hgs : get_search_results env.searchSteps env.retryAnswers with ⟨r, evs⟩
  rw [hgs] at h hev
  simp only at h
  subst h
  unfold check_existing_group
  rw [hgs]
  refine ⟨rfl, ?_, ?_, ?_⟩ <;>
    · intro hmem
      have := hev _ hmem
      simp at this

/-- C5 witness: the concrete declined-retry run aborts without reaching
any candidate or confirm prompt. -/
theorem c5_witness :
    (check_existing_group c5Env).1 = CEGRes.aborted ∧
      Ev.recentPrompt ∉ (check_existing_group c5Env).2 ∧
      Ev.groupPrompt ∉ (check_existing_group c5Env).2 ∧
      Ev.confirmPrompt ∉ (check_existing_group c5Env).2 :=
  c5_abort_propagation c5Env (by decide)

/-! ## C2 -/

/-- C2 (corrected): a group id resolved on the log-fallback path (empty
structured results, recent-upload checking enabled, the recent-uploads
prompt returning a truthy id) does **not** skip confirmation: the run
enters the confirm-group dialogue, and returns the id as an existing
group precisely when that dialogue answers yes. -/
theorem c2_log_path_enters_confirm (env : CEGEnv) (evs : List Ev)
    (recent : List Upload) (g : Nat)
    (hs : get_search_results env.searchSteps env.retryAnswers
      = (GSRes.results [], evs))
    (hcfg : env.checkRecentUploads = true)
    (hrec : dupe_check_recent_torrents env.logTolerance env.searchstrs
      env.logUploads = some recent)
    (hp : promptRecent env.promptEnv recent env.offerDeletion env.promptInputs
      = PromptResult.group g)
    (hg : g ≠ 0) :
    Ev.confirmPrompt ∈ (check_existing_group env).2 ∧
      ((check_existing_group env).1 = CEGRes.ok (some g) ↔
        confirmGroup env.groupExists g [] env.confirmAnswers
          = ConfirmResult.yes) := by
  unfold check_existing_group
  rw [hs]
  simp only [List.isEmpty_nil, hcfg, Bool.and_self, if_true, hrec, hp]
  rw [if_pos hg]
  cases hc : confirmGroup env.groupExists g [] env.confirmAnswers <;>
    simp [hc]

/-- C2 counterexample: on the log-fallback path the confirm dialogue *is*
entered (`confirmPrompt` occurs), and its answer decides the outcome —
answering `n` yields a new group instead of the resolved id — refuting
the claim that such a resolution returns `ExistingGroup` without the
confirm dialogue. -/
theorem c2_counterexample :
    Ev.confirmPrompt ∈ (check_existing_group c2Env).2 ∧
      (check_existing_group c2Env).1 = CEGRes.ok (some 5) ∧
      (check_existing_group c2EnvNo).1 = CEGRes.ok none := by
  refine ⟨by decide, by decide, by decide⟩

/-- C2 witness: the amended theorem applied to the concrete
log-fallback run. -/
theorem c2_witness :
    Ev.confirmPrompt ∈ (check_existing_group c2Env).2 ∧
      (check_existing_group c2Env).1 = CEGRes.ok (some 5) := by
  have h := c2_log_path_enters_confirm c2Env [] [] 5 (by decide) (by decide)
    (by decide) (by decide) (by decide)
  exact ⟨h.1, h.2.mpr (by decide)⟩

/-- C8 (corrected): the numeric-range test of the recent-uploads prompt
uses the length of the **full** candidate list, not of the at-most-five
displayed entries: a parsed number inside `1..len(recent_uploads)`
resolves that candidate's torrent id through the redirect lookup, and
only a number beyond the full list is taken literally as a group id. -/
theorem c8_range_is_full_list (env : PromptEnv) (uploads : List Upload)
    (offerDeletion : Bool) (rest : List String) (s : String) (n : Nat)
    (hparse : parseNumericInput s = some n) (hpos : n ≠ 0) :
    (∀ u g, uploads.get? (n - 1) = some u →
      env.redirect u.torrentId = some g →
      promptRecent env uploads offerDeletion (s :: rest)
        = PromptResult.group g) ∧
      (uploads.length < n →
        promptRecent env uploads offerDeletion (s :: rest)
          = PromptResult.group n) := by
  constructor
  · intro u g hu hg
    have hlt : n - 1 < uploads.length := List.get?_eq_some.mp hu |>.1
    have hne : ¬ uploads.isEmpty := by
      cases uploads with
      | nil => simp at hlt
      | cons a l => simp
    have hcond : ¬ uploads.isEmpty ∧ 1 ≤ n ∧ n ≤ uploads.length :=
      ⟨hne, Nat.one_le_iff_ne_zero.mpr hpos, by omega⟩
    rw [promptRecent, hparse]
    simp only [if_neg hpos]
    rw [if_pos hcond, hu]
    show (match env.redirect u.torrentId with
      | some g => PromptResult.group g
      | none => promptRecent env uploads offerDeletion rest)
      = PromptResult.group g
    rw [hg]
  · intro hlen
    have hcond : ¬ (¬ uploads.isEmpty ∧ 1 ≤ n ∧ n ≤ uploads.length) := by
      rintro ⟨-, -, hle⟩
      omega
    rw [promptRecent, hparse]
    simp only [if_neg hpos]
    rw [if_neg hcond]

/-- C8 counterexample: with six candidates in the list (only five
displayed), the input `"6"` is *not* interpreted literally as group 6 —
it resolves candidate six's torrent id 16 through the redirect lookup to
group 99, refuting the claim that numbers outside the presented (≤ 5)
range are taken literally. -/
theorem c8_counterexample :
    promptRecent envC8 uploadsC8 true ["6"] = PromptResult.group 99 ∧
      PromptResult.group 99 ≠ PromptResult.group 6 := by
  refine ⟨by decide, by decide⟩

/-- C8 witness: input `"6"` (inside the full six-element list) resolves
through the redirect to group 99; input `"7"` (beyond the full list) is
the literal group id 7. -/
theorem c8_witness :
    promptRecent envC8 uploadsC8 true ["6"] = PromptResult.group 99 ∧
      promptRecent envC8 uploadsC8 true ["7"] = PromptResult.group 7 := by
  have h6 := c8_range_is_full_list envC8 uploadsC8 true [] "6" 6
    (by decide) (by decide)
  have h7 := c8_range_is_full_list envC8 uploadsC8 true [] "7" 7
    (by decide) (by decide)
  exact ⟨h6.1 ⟨16, "a6", "t6"⟩ 99 (by decide) (by decide), h7.2 (by decide)⟩

/-! ## C10 -/

/-- C10 (confirmed): at both candidate prompts the inputs `"0"` and `"1"`
take identical paths (`0` is normalized to the first choice), and with a
nonempty candidate list `"0"` resolves to the first candidate — the
redirect of its torrent id at the recent prompt, its `groupId` at the
structured prompt. -/
theorem c10_zero_equals_one (env : PromptEnv) (uploads : List Upload)
    (results : List Release) (offerDeletion : Bool) (rest : List String) :
    promptRecent env uploads offerDeletion ("0" :: rest)
        = promptRecent env uploads offerDeletion ("1" :: rest) ∧
      promptGroup env results offerDeletion ("0" :: rest)
        = promptGroup env results offerDeletion ("1" :: rest) ∧
      (∀ u g, uploads.head? = some u → env.redirect u.torrentId = some g →
        promptRecent env uploads offerDeletion ("0" :: rest)
          = PromptResult.group g) ∧
      (∀ r, results.head? = some r →
        promptGroup env results offerDeletion ("0" :: rest)
          = PromptResult.group r.groupId) := by
  refine ⟨rfl, rfl, ?_, ?_⟩
  · intro u g hu hg
    cases uploads with
    | nil => simp at hu
    | cons v tail =>
      have huv : v = u := by simpa using hu
      subst huv
      have hcond : ¬ (v :: tail).isEmpty ∧ 1 ≤ 1 ∧ 1 ≤ (v :: tail).length :=
        ⟨by simp, le_refl 1, by simp⟩
      rw [promptRecent]
      show (if ¬ (v :: tail).isEmpty ∧ 1 ≤ 1 ∧ 1 ≤ (v :: tail).length then
          match (v :: tail).get? 0 with
          | some u =>
            match env.redirect u.torrentId with
            | some g => PromptResult.group g
            | none => promptRecent env (v :: tail) offerDeletion rest
          | none => PromptResult.stuck
        else PromptResult.group 1) = PromptResult.group g
      rw [if_pos hcond]
      show (match env.redirect v.torrentId with
        | some g => PromptResult.group g
        | none => promptRecent env (v :: tail) offerDeletion rest)
        = PromptResult.group g
      rw [hg]
  · intro r hr
    cases results with
    | nil => simp at hr
    | cons v tail =>
      have hrv : v = r := by simpa using hr
      subst hrv
      rw [promptGroup]
      show (if h : 0 < (v :: tail).length then
          PromptResult.group ((v :: tail).get ⟨0, h⟩).groupId
        else PromptResult.group 1) = PromptResult.group v.groupId
      rw [dif_pos (by simp : (0 : Nat) < (v :: tail).length)]
      rfl

/-- C10 witness: with one candidate at each prompt, input `"0"` resolves
to the first candidate (redirect of torrent 16 to group 99 at the recent
prompt, group 123 at the structured prompt) and matches input `"1"`. -/
theorem c10_witness :
    promptRecent envC8 [uploadC10] true ["0"] = PromptResult.group 99 ∧
      promptGroup envC8 [releaseC10] true ["0"] = PromptResult.group 123 ∧
      promptRecent envC8 [uploadC10] true ["0"]
        = promptRecent envC8 [uploadC10] true ["1"] := by
  have h := c10_zero_equals_one envC8 [uploadC10] [releaseC10] true []
  exact ⟨h.2.2.1 uploadC10 99 rfl (by decide), h.2.2.2 releaseC10 rfl, h.1⟩

end Salmon
